import Mathlib

/-!
Shallow embedding of `target_parquet.py` (rightx2/target-parquet).

The embedding models the message-processing state machine
(`persist_messages`), the flush/write operation (`save_data`), the type
mapper (`jsonschema_to_dataframe_schema`) and the record flattener
(`flatten`).  Python dictionaries are modelled as association lists in
insertion order; Python's dynamically typed values are modelled by the
closed variant type `PyVal`.  Fallible code returns `Except`.
-/

namespace TargetParquet

/-- A Python value as it appears in protocol messages: None, int, str,
bool, list, or dict (insertion-ordered association list). -/
inductive PyVal where
  | vNone : PyVal
  | vInt (n : Int) : PyVal
  | vStr (s : String) : PyVal
  | vBool (b : Bool) : PyVal
  | vList (l : List PyVal) : PyVal
  | vDict (d : List (String × PyVal)) : PyVal

mutual

/-- Python `repr` of a value (as used by `str` on a list, which renders
its elements with `repr`).  Strings are quoted with `'`; `None`, `True`,
`False` and integers render as in CPython. -/
def pyRepr : PyVal → String
  | .vNone => "None"
  | .vInt n => toString n
  | .vStr s => "\x27" ++ s ++ "\x27"
  | .vBool b => if b then "True" else "False"
  | .vList l => "[" ++ pyReprList l ++ "]"
  | .vDict d => "\x7b" ++ pyReprDict d ++ "\x7d"

/-- Comma-separated `repr`s of list elements. -/
def pyReprList : List PyVal → String
  | [] => ""
  | [v] => pyRepr v
  | v :: rest => pyRepr v ++ ", " ++ pyReprList rest

/-- Comma-separated `repr`s of dict items. -/
def pyReprDict : List (String × PyVal) → String
  | [] => ""
  | [(k, v)] => "\x27" ++ k ++ "\x27: " ++ pyRepr v
  | (k, v) :: rest => "\x27" ++ k ++ "\x27: " ++ pyRepr v ++ ", " ++ pyReprDict rest

end

/-- Model of `flatten` (source lines 29-57): flattens a nested dict, joining key
segments with `sep` (`parent_key + sep + k` when `parent_key` is truthy,
else `k`); recurses into mapping values, replaces list values by their
Python `str` representation, and keeps all other leaves unchanged.  The
Python function returns `dict(items)`; we return the `items` association
list itself. -/
def flatten : List (String × PyVal) → String → String → List (String × PyVal)
  | [], _, _ => []
  | (k, v) :: rest, parent_key, sep =>
    let new_key := if parent_key = "" then k else parent_key ++ sep ++ k
    match v with
    | .vDict m => flatten m new_key sep ++ flatten rest parent_key sep
    | .vList l => (new_key, .vStr ("[" ++ pyReprList l ++ "]")) :: flatten rest parent_key sep
    | leaf => (new_key, leaf) :: flatten rest parent_key sep

/-- The concrete pandas dtypes produced by the type mapper. -/
inductive Dtype where
  | int64 : Dtype
  | float64 : Dtype
  | string : Dtype
  | boolean : Dtype
  | object : Dtype
  deriving DecidableEq

/-- A JSON schema as consumed by `jsonschema_to_dataframe_schema`:
`properties` is an optional map from field name to the field's declared
`"type"` entry (`none` models a property dict without a `"type"` key;
`some ""` models a present but empty type string, which is falsy in
Python). -/
structure JsonSchema where
  properties : Option (List (String × Option String))

/-- The per-field branch of `jsonschema_to_dataframe_schema` (source
lines 65-79): a truthy type string is mapped through the five known
cases or raises `Exception ("Unknown dtype: ...")` (modelled as
`.error t`); a falsy (`none` or empty) type yields `"object"`. -/
def dtypeOfField : Option String → Except String Dtype
  | some t =>
    if t = "" then .ok .object
    else if t = "integer" then .ok .int64
    else if t = "number" then .ok .float64
    else if t = "string" then .ok .string
    else if t = "boolean" then .ok .boolean
    else if t = "array" then .ok .object
    else .error t
  | none => .ok .object

/-- Iteration of `dtypeOfField` over `properties.items()`, raising at the
first unknown dtype as the Python loop does. -/
def mapFields : List (String × Option String) → Except String (List (String × Dtype))
  | [] => .ok []
  | (k, t) :: rest =>
    match dtypeOfField t with
    | .error e => .error e
    | .ok d =>
      match mapFields rest with
      | .error e => .error e
      | .ok ds => .ok ((k, d) :: ds)

/-- Model of `jsonschema_to_dataframe_schema` (source lines 60-82): returns the
per-field dtype map when `properties` is present, `{}` otherwise. -/
def jsonschema_to_dataframe_schema (json_schema : JsonSchema) :
    Except String (List (String × Dtype)) :=
  match json_schema.properties with
  | some props => mapFields props
  | none => .ok []

/-- The failure modes of a run.  `recordBeforeSchema` and
`outOfOrderStream` are the two disjuncts of the guard at source line 134
(`current_stream_name is None or current_stream_name != stream_name`),
both raised there as `Exception ("You must send schema first before
sending records")`; `nameErrorStreamName` is the `NameError` raised at
source line 161 when the local `stream_name` was never assigned;
`typeErrorNoneStream` is the `TypeError` from `os.path.join` on a `None`
stream name; `attributeErrorNoneSchema` is the `AttributeError` from
`None.get("properties")`; `keyErrorCompression` is the `KeyError` from
`extension_mapping[compression_method]`; `unsupportedType` is the
`Exception ("Unknown dtype: ...")` of the type mapper. -/
inductive RunError where
  | recordBeforeSchema : RunError
  | outOfOrderStream (active incoming : String) : RunError
  | unsupportedType (t : String) : RunError
  | nameErrorStreamName : RunError
  | typeErrorNoneStream : RunError
  | attributeErrorNoneSchema : RunError
  | keyErrorCompression (c : String) : RunError
  deriving DecidableEq

/-- One call of pandas `DataFrame.to_parquet`: the resolved file path,
the rows written (the record dicts, in buffer order), the dtype layout
passed to `astype`, and the compression codec handed to the engine. -/
structure WriteEvent where
  filepath : String
  rows : List PyVal
  dtypes : List (String × Dtype)
  compression : Option String

/-- The configuration arguments of `persist_messages`, plus `gen_name`,
which models the fresh `str(uuid4())` drawn when `file_name` is falsy.
Empty strings model absent `destination_partition_path` / `file_name`
(the code tests them for truthiness only). -/
structure Config where
  destination_path : String
  destination_partition_path : String
  file_name : String
  compression_method : Option String
  gen_name : String

/-- The fixed `extension_mapping` dict of source line 107; a lookup of
any other key raises `KeyError`, modelled by `none`. -/
def extension_mapping : String → Option String
  | "gzip" => some ".gz"
  | "bz2" => some ".bz2"
  | "zip" => some ".zip"
  | "xz" => some ".xz"
  | _ => none

/-- Model of `os.path.join` for two components under the POSIX rules the code
relies on: a component starting with `/` restarts the path; otherwise a
`/` separator is inserted unless the accumulated path is empty or
already ends with `/`. -/
def path_join (a b : String) : String :=
  if b.data.head? = some '/' then b
  else if a = "" ∨ a.data.getLast? = some '/' then a ++ b
  else a ++ "/" ++ b

/-- Model of `os.path.join` with three components. -/
def path_join3 (a b c : String) : String := path_join (path_join a b) c

/-- Model of `os.path.join` with four components. -/
def path_join4 (a b c d : String) : String := path_join (path_join3 a b c) d

/-- Model of `save_data` (source lines 85-112).  Returns `.ok none` when no file
is written (the `len(records) == 0` short-circuit), `.ok (some w)` for
one `to_parquet` call, and `.error` when the Python code would raise:
`astype`'s schema mapping first (the dataframe is built and coerced
before the path is computed), then path construction, then the
compression extension lookup.  `stream_name` is `Option String` because
the stream-switch call site passes `current_stream_name`, which can be
`None`. -/
def save_data (cfg : Config) (records : List PyVal) (schema : Option JsonSchema)
    (stream_name : Option String) : Except RunError (Option WriteEvent) :=
  if records.length = 0 then .ok none
  else
    match schema with
    | none => .error .attributeErrorNoneSchema
    | some sch =>
      match jsonschema_to_dataframe_schema sch with
      | .error t => .error (.unsupportedType t)
      | .ok dtypes =>
        match stream_name with
        | none => .error .typeErrorNoneStream
        | some s =>
          let fname := if cfg.file_name = "" then cfg.gen_name ++ ".parquet" else cfg.file_name
          let filepath :=
            if cfg.destination_partition_path = "" then
              path_join3 cfg.destination_path s fname
            else
              path_join4 cfg.destination_path s cfg.destination_partition_path fname
          match cfg.compression_method with
          | none => .ok (some ⟨filepath, records, dtypes, none⟩)
          | some c =>
            if c = "" then .ok (some ⟨filepath, records, dtypes, none⟩)
            else
              match extension_mapping c with
              | none => .error (.keyErrorCompression c)
              | some ext => .ok (some ⟨filepath ++ ext, records, dtypes, some c⟩)

/-- A parsed protocol message.  Lines that fail to parse, or whose type
is not one of the three kinds, abort before reaching the dispatcher's
state updates and are out of scope here. -/
inductive Message where
  | state (value : PyVal) : Message
  | record (stream : String) (record : PyVal) : Message
  | schema (stream : String) (schema : JsonSchema) : Message

/-- The loop-local variables of `persist_messages` (source lines
116-120): `stream_name` models the Python local that is only assigned
inside the `RECORD`/`SCHEMA` branches and is otherwise unbound
(`none`). -/
structure LoopState where
  state : Option PyVal
  schema : Option JsonSchema
  current_stream_name : Option String
  records : List PyVal
  stream_name : Option String

/-- The state of the loop variables before the first message. -/
def initState : LoopState :=
  { state := none, schema := none, current_stream_name := none,
    records := [], stream_name := none }

/-- Result of dispatching one message: the updated locals, the write the
step performed (if any), and whether `save_data` was invoked (`flushed`
is true also for an empty-buffer, no-op invocation). -/
structure StepOut where
  st : LoopState
  write : Option WriteEvent
  flushed : Bool

/-- One iteration of the `for message in messages` loop (source lines
128-159).  The `RECORD` guard is source line 134: its first disjunct
(`current_stream_name is None`) gives `recordBeforeSchema`, the second
(`current_stream_name != stream_name`) gives `outOfOrderStream`.  The
`SCHEMA` branch flushes via `save_data` only when the stream differs
from the active one, then unconditionally installs the new schema and
resets `records` to `[]` (source lines 150-152). -/
def step (cfg : Config) (st : LoopState) (m : Message) : Except RunError StepOut :=
  match m with
  | .state v => .ok ⟨{ st with state := some v }, none, false⟩
  | .record stream r =>
    let st1 := { st with stream_name := some stream }
    match st1.current_stream_name with
    | none => .error .recordBeforeSchema
    | some cur =>
      if cur = stream then
        .ok ⟨{ st1 with records := st1.records ++ [r] }, none, false⟩
      else
        .error (.outOfOrderStream cur stream)
  | .schema stream sch =>
    let st1 := { st with stream_name := some stream }
    if st1.current_stream_name = some stream then
      .ok ⟨{ st1 with
             current_stream_name := some stream, schema := some sch,
             records := [] }, none, false⟩
    else
      match save_data cfg st1.records st1.schema st1.current_stream_name with
      | .error e => .error e
      | .ok w =>
        .ok ⟨{ st1 with
               current_stream_name := some stream, schema := some sch,
               records := [] }, w, true⟩

/-- Outcome of a whole run: the writes performed (in order), the number
of `save_data` invocations, and either the returned `state` value or the
error that aborted the run. -/
structure RunResult where
  writes : List WriteEvent
  flushes : Nat
  outcome : Except RunError (Option PyVal)

/-- The message loop followed by the end-of-input flush (source line
161).  The final `save_data` call passes the loop-local `stream_name`;
if it was never assigned the call site itself raises `NameError` before
`save_data` runs. -/
def run (cfg : Config) : List Message → LoopState → List WriteEvent → Nat → RunResult
  | [], st, ws, fl =>
    match st.stream_name with
    | none => ⟨ws, fl, .error .nameErrorStreamName⟩
    | some sn =>
      match save_data cfg st.records st.schema (some sn) with
      | .error e => ⟨ws, fl + 1, .error e⟩
      | .ok none => ⟨ws, fl + 1, .ok st.state⟩
      | .ok (some w) => ⟨ws ++ [w], fl + 1, .ok st.state⟩
  | m :: rest, st, ws, fl =>
    match step cfg st m with
    | .error e => ⟨ws, fl, .error e⟩
    | .ok out => run cfg rest out.st (ws ++ out.write.toList) (fl + if out.flushed then 1 else 0)

/-- Model of `persist_messages` (source lines 115-163) on an already-parsed
message list. -/
def persist_messages (cfg : Config) (msgs : List Message) : RunResult :=
  run cfg msgs initState [] 0

/-- The loop state reached after a non-aborting prefix of messages
(`none` when some message in the prefix aborts the run). -/
def processPrefix (cfg : Config) : List Message → LoopState → Option LoopState
  | [], st => some st
  | m :: rest, st =>
    match step cfg st m with
    | .error _ => none
    | .ok out => processPrefix cfg rest out.st

/-- Specification-side description of the buffer contents: the record
payloads that arrived after the most recent `SCHEMA` message, in arrival
order (`acc` is the buffer carried into the message list). -/
def recordsSinceLastSchema : List Message → List PyVal → List PyVal
  | [], acc => acc
  | .schema _ _ :: rest, _ => recordsSinceLastSchema rest []
  | .record _ r :: rest, acc => recordsSinceLastSchema rest (acc ++ [r])
  | .state _ :: rest, acc => recordsSinceLastSchema rest acc

/-- Specification-side checkpoint fold: a `STATE` message overwrites the
checkpoint, everything else leaves it unchanged. -/
def updateState (acc : Option PyVal) (m : Message) : Option PyVal :=
  match m with
  | .state v => some v
  | _ => acc

/-- The value of the last `STATE` message of a sequence, `none` when
there is none. -/
def lastStateValue (msgs : List Message) : Option PyVal :=
  msgs.foldl updateState none

/-- Specification-side count of the schema announcements that change
the active stream, starting from active stream `cur`. -/
def schemaStreamChanges : List Message → Option String → Nat
  | [], _ => 0
  | .schema s _ :: rest, cur =>
    (if cur = some s then 0 else 1) + schemaStreamChanges rest (some s)
  | .record _ _ :: rest, cur => schemaStreamChanges rest cur
  | .state _ :: rest, cur => schemaStreamChanges rest cur

/-- The record `{"name": "kyrie", "age": 10}` of the test scenario. -/
def kyrieRecord : PyVal := .vDict [("name", .vStr "kyrie"), ("age", .vInt 10)]

/-- The record `{"name": "paul", "age": 20}` of the test scenario. -/
def paulRecord : PyVal := .vDict [("name", .vStr "paul"), ("age", .vInt 20)]

/-- Configuration of the path-construction scenario: destination
`/tmp`, partition `wow`, fixed file name `a.parquet`, no compression. -/
def scenarioConfig : Config := ⟨"/tmp", "wow", "a.parquet", none, "gen-unique"⟩

/-- Messages of the path-construction scenario:
`SCHEMA(my_stream, {})` followed by the two records. -/
def scenarioMessages : List Message :=
  [.schema "my_stream" ⟨none⟩,
   .record "my_stream" kyrieRecord,
   .record "my_stream" paulRecord]

/-- Configuration used by the schema-re-announcement run: destination
`/tmp`, no partition, fixed file name, no compression. -/
def reannounceConfig : Config := ⟨"/tmp", "", "a.parquet", none, "gen-unique"⟩

/-- A run in which a record is buffered for stream `s` and then the
schema for `s` is re-announced before end of input. -/
def reannounceMessages : List Message :=
  [.schema "s" ⟨none⟩, .record "s" (.vInt 1), .schema "s" ⟨none⟩]

/-- Records sent with no preceding `SCHEMA` message. -/
def noSchemaMessages : List Message :=
  [.record "my_stream" kyrieRecord, .record "my_stream" paulRecord]

/-- The nested dictionary of the `flatten` docstring example. -/
def exampleNested : List (String × PyVal) :=
  [("key_1", .vInt 1),
   ("key_2", .vDict
     [("key_3", .vInt 2),
      ("key_4", .vDict
        [("key_5", .vInt 3),
         ("key_6", .vList [.vStr "10", .vStr "11"])])])]

/-- The file name actually used by `save_data`: the configured
`file_name`, or the freshly generated unique name with the `.parquet`
extension when `file_name` is absent/empty (source lines 96-97). -/
def resolvedFileName (cfg : Config) : String :=
  if cfg.file_name = "" then cfg.gen_name ++ ".parquet" else cfg.file_name

/-- Path as described by the spec's words: `destination_path` joined
with the stream name, then the partition path (omitted exactly when it
is empty/absent), then the file name. -/
def specFlushPath (cfg : Config) (stream : String) : String :=
  cfg.destination_path ++ "/" ++ stream ++
    (if cfg.destination_partition_path = "" then ""
     else "/" ++ cfg.destination_partition_path) ++
    "/" ++ resolvedFileName cfg

lemma data_eq_nil_iff {s : String} : s.data = [] ↔ s = "" :=
  ⟨fun h => String.ext h, fun h => h ▸ rfl⟩

lemma append_ne_empty_left {a : String} (b : String) (ha : a ≠ "") : a ++ b ≠ "" := by
  intro h
  have h2 := congrArg String.data h
  simp only [String.data_append] at h2
  rcases List.append_eq_nil.mp h2 with ⟨h3, _⟩
  exact ha (data_eq_nil_iff.mp h3)

lemma getLast?_append_str {a b : String} (hb : b ≠ "") :
    (a ++ b).data.getLast? = b.data.getLast? := by
  rw [String.data_append]
  exact List.getLast?_append_of_ne_nil _ (fun h => hb (data_eq_nil_iff.mp h))

lemma path_join_clean {a b : String} (ha : a ≠ "") (ha2 : a.data.getLast? ≠ some '/')
    (hb : b.data.head? ≠ some '/') : path_join a b = a ++ "/" ++ b := by
  unfold path_join
  rw [if_neg hb, if_neg (not_or.mpr ⟨ha, ha2⟩)]

lemma path_join3_clean {a b c : String} (ha : a ≠ "") (ha2 : a.data.getLast? ≠ some '/')
    (hb : b ≠ "") (hb1 : b.data.head? ≠ some '/') (hb2 : b.data.getLast? ≠ some '/')
    (hc : c.data.head? ≠ some '/') :
    path_join3 a b c = a ++ "/" ++ b ++ "/" ++ c := by
  unfold path_join3
  rw [path_join_clean ha ha2 hb1]
  exact path_join_clean (append_ne_empty_left b (append_ne_empty_left "/" ha))
    (by rw [getLast?_append_str hb]; exact hb2) hc

lemma path_join4_clean {a b c d : String} (ha : a ≠ "") (ha2 : a.data.getLast? ≠ some '/')
    (hb : b ≠ "") (hb1 : b.data.head? ≠ some '/') (hb2 : b.data.getLast? ≠ some '/')
    (hc : c ≠ "") (hc1 : c.data.head? ≠ some '/') (hc2 : c.data.getLast? ≠ some '/')
    (hd : d.data.head? ≠ some '/') :
    path_join4 a b c d = a ++ "/" ++ b ++ "/" ++ c ++ "/" ++ d := by
  unfold path_join4
  rw [path_join3_clean ha ha2 hb hb1 hb2 hc1]
  exact path_join_clean
    (append_ne_empty_left c (append_ne_empty_left "/" (append_ne_empty_left b
      (append_ne_empty_left "/" ha))))
    (by rw [getLast?_append_str hc]; exact hc2) hd

lemma step_state_eq (cfg : Config) (st : LoopState) (v : PyVal) :
    step cfg st (.state v) = .ok ⟨{ st with state := some v }, none, false⟩ := rfl

lemma step_record_ok {cfg : Config} {st : LoopState} {s : String} {r : PyVal}
    {out : StepOut} (h : step cfg st (.record s r) = .ok out) :
    st.current_stream_name = some s ∧
    out = ⟨{ st with stream_name := some s, records := st.records ++ [r] }, none, false⟩ := by
  simp only [step] at h
  split at h
  · exact absurd h (by simp)
  · split at h
    · rename_i cur hcur heq
      simp only [Except.ok.injEq] at h
      subst heq
      exact ⟨hcur, h.symm⟩
    · exact absurd h (by simp)

lemma step_schema_same {cfg : Config} {st : LoopState} {s : String} {sch : JsonSchema}
    (h : st.current_stream_name = some s) :
    step cfg st (.schema s sch) =
      .ok ⟨⟨st.state, some sch, some s, [], some s⟩, none, false⟩ := by
  simp [step, h]

lemma step_schema_diff {cfg : Config} {st : LoopState} {s : String} {sch : JsonSchema}
    (h : st.current_stream_name ≠ some s) :
    step cfg st (.schema s sch) =
      match save_data cfg st.records st.schema st.current_stream_name with
      | .error e => .error e
      | .ok w => .ok ⟨⟨st.state, some sch, some s, [], some s⟩, w, true⟩ := by
  simp [step, h]

/-- C7: flushing with an empty record sequence succeeds without writing
any file, for every schema, stream, path, partition, file-name and
compression configuration; consequently a run that announces a stream
but buffers zero records for it performs its flushes (two invocations:
the initial-activation flush and the end-of-input flush) yet writes no
file. -/
theorem empty_flush_writes_nothing (cfg : Config) (schema : Option JsonSchema)
    (stream : Option String) (s : String) (sch : JsonSchema) :
    save_data cfg [] schema stream = .ok none ∧
    (persist_messages cfg [.schema s sch]).writes = [] ∧
    (persist_messages cfg [.schema s sch]).flushes = 2 ∧
    (persist_messages cfg [.schema s sch]).outcome = .ok none := by
  refine ⟨rfl, ?_, ?_, ?_⟩ <;>
    simp [persist_messages, run, step, initState, save_data]

/-- C1 counterexample: with the schema for stream `s` re-announced while
`s` is active and one record buffered, the dispatcher performs no flush
and updates the schema, but it also resets the buffer: the step returns
an empty `records` list, and the completed run performs zero writes, so
the buffered record is not included in any later flush. -/
theorem schema_reannounce_drops_records :
    step reannounceConfig ⟨none, some ⟨none⟩, some "s", [.vInt 1], some "s"⟩
        (.schema "s" ⟨none⟩)
      = .ok ⟨⟨none, some ⟨none⟩, some "s", [], some "s"⟩, none, false⟩ ∧
    persist_messages reannounceConfig reannounceMessages = ⟨[], 2, .ok none⟩ :=
  ⟨rfl, rfl⟩

/-- C1 amended: when a `SCHEMA` message arrives for the stream that is
already active, the dispatcher performs no flush, updates the active
schema, and resets the record buffer to empty — records buffered before
the re-announced `SCHEMA` are discarded, not kept for the next flush. -/
theorem schema_reannounce_same_stream (cfg : Config) (st : LoopState) (s : String)
    (sch : JsonSchema) (h : st.current_stream_name = some s) :
    step cfg st (.schema s sch) =
      .ok ⟨⟨st.state, some sch, some s, [], some s⟩, none, false⟩ := by
  simp [step, h]

/-- Witness for `schema_reannounce_same_stream` at a concrete state. -/
theorem schema_reannounce_same_stream_witness :
    step reannounceConfig ⟨none, some ⟨none⟩, some "s", [.vInt 1], some "s"⟩
        (.schema "s" ⟨none⟩)
      = .ok ⟨⟨none, some ⟨none⟩, some "s", [], some "s"⟩, none, false⟩ :=
  schema_reannounce_same_stream reannounceConfig _ "s" ⟨none⟩ rfl

/-- C2: a `RECORD` observed while no stream is active aborts the run
with the record-before-schema error, a `RECORD` for stream `T` observed
while a different stream `S` is active aborts with the out-of-order
error, and in both cases the run ends immediately with no further
writes (the returned write list is exactly the writes performed before
that record); the concrete two-record no-schema scenario aborts with
zero writes.  Both errors are the `Exception ("You must send schema
first before sending records")` raise of source line 135, distinguished
by which disjunct of the line-134 guard fired. -/
theorem record_ordering_violations :
    (∀ cfg st ws fl stream r rest, st.current_stream_name = none →
      run cfg (.record stream r :: rest) st ws fl = ⟨ws, fl, .error .recordBeforeSchema⟩) ∧
    (∀ cfg st ws fl stream r rest s, st.current_stream_name = some s → s ≠ stream →
      run cfg (.record stream r :: rest) st ws fl =
        ⟨ws, fl, .error (.outOfOrderStream s stream)⟩) ∧
    persist_messages reannounceConfig noSchemaMessages = ⟨[], 0, .error .recordBeforeSchema⟩ := by
  refine ⟨?_, ?_, rfl⟩
  · intro cfg st ws fl stream r rest h
    simp [run, step, h]
  · intro cfg st ws fl stream r rest s h hne
    simp [run, step, h, hne]

/-- Witness for `record_ordering_violations` at concrete inputs. -/
theorem record_ordering_violations_witness :
    run reannounceConfig [.record "t" (.vInt 1)]
        ⟨none, some ⟨none⟩, some "s", [], some "s"⟩ [] 0
      = ⟨[], 0, .error (.outOfOrderStream "s" "t")⟩ :=
  record_ordering_violations.2.1 reannounceConfig _ [] 0 "t" (.vInt 1) [] "s" rfl
    (by decide)

lemma run_all_state_name_error (cfg : Config) (msgs : List Message) :
    ∀ st ws fl, (∀ m ∈ msgs, ∃ v, m = Message.state v) → st.stream_name = none →
      (run cfg msgs st ws fl).outcome = .error .nameErrorStreamName := by
  induction msgs with
  | nil =>
    intro st ws fl _ h2
    simp [run, h2]
  | cons m rest ih =>
    intro st ws fl h1 h2
    obtain ⟨v, rfl⟩ := h1 m (List.mem_cons_self _ _)
    rw [run, step_state_eq]
    exact ih _ _ _ (fun m hm => h1 m (List.mem_cons_of_mem _ hm)) h2

/-- C8: the message loop returns normally only when the input contains
at least one `SCHEMA` or `RECORD` message; on every input consisting
solely of `STATE` messages (in particular the empty input) the
end-of-input flush reads the never-assigned local `stream_name`, so the
run fails with the unbound-name (`NameError`) error instead of
returning the last checkpoint value. -/
theorem empty_like_input_name_error :
    (∀ cfg msgs, (∀ m ∈ msgs, ∃ v, m = Message.state v) →
      (persist_messages cfg msgs).outcome = .error .nameErrorStreamName) ∧
    (∀ cfg msgs v, (persist_messages cfg msgs).outcome = .ok v →
      ∃ m ∈ msgs, (∃ s sch, m = Message.schema s sch) ∨ (∃ s r, m = Message.record s r)) := by
  constructor
  · intro cfg msgs h
    exact run_all_state_name_error cfg msgs initState [] 0 h rfl
  · intro cfg msgs v hok
    by_contra hcon
    push_neg at hcon
    have hall : ∀ m ∈ msgs, ∃ w, m = Message.state w := by
      intro m hm
      cases m with
      | state w => exact ⟨w, rfl⟩
      | record s r => exact absurd rfl ((hcon _ hm).2 s r)
      | schema s sch => exact absurd rfl ((hcon _ hm).1 s sch)
    have herr := run_all_state_name_error cfg msgs initState [] 0 hall rfl
    rw [persist_messages] at hok
    rw [hok] at herr
    exact absurd herr (by simp)

/-- Witness for `empty_like_input_name_error`: a run consisting of a
single `STATE` message fails with the unbound-name error. -/
theorem empty_like_input_name_error_witness :
    (persist_messages reannounceConfig [.state (.vInt 7)]).outcome
      = .error .nameErrorStreamName :=
  empty_like_input_name_error.1 reannounceConfig [.state (.vInt 7)]
    (fun m hm => by rw [List.mem_singleton] at hm; exact ⟨.vInt 7, hm⟩)

lemma run_outcome_last_state (cfg : Config) (msgs : List Message) :
    ∀ st ws fl v, (run cfg msgs st ws fl).outcome = .ok v →
      v = msgs.foldl updateState st.state := by
  induction msgs with
  | nil =>
    intro st ws fl v hok
    simp only [run] at hok
    split at hok
    · exact absurd hok (by simp)
    · split at hok
      · exact absurd hok (by simp)
      · simp only [List.foldl]
        simpa using hok.symm
      · simp only [List.foldl]
        simpa using hok.symm
  | cons m rest ih =>
    intro st ws fl v hok
    cases m with
    | state w =>
      rw [run, step_state_eq] at hok
      simpa [List.foldl, updateState] using ih _ _ _ v hok
    | record s r =>
      rw [run] at hok
      rcases hstep : step cfg st (.record s r) with e | out
      · rw [hstep] at hok
        exact absurd hok (by simp)
      · rw [hstep] at hok
        obtain ⟨-, rfl⟩ := step_record_ok hstep
        simpa [List.foldl, updateState] using ih _ _ _ v hok
    | schema s sch =>
      rw [run] at hok
      by_cases hc : st.current_stream_name = some s
      · rw [step_schema_same hc] at hok
        simpa [List.foldl, updateState] using ih _ _ _ v hok
      · rw [step_schema_diff hc] at hok
        rcases hsd : save_data cfg st.records st.schema st.current_stream_name with e | w
        · rw [hsd] at hok
          exact absurd hok (by simp)
        · rw [hsd] at hok
          simpa [List.foldl, updateState] using ih _ _ _ v hok

lemma foldl_updateState_no_state :
    ∀ (msgs : List Message) (acc : Option PyVal),
      (∀ m ∈ msgs, ∀ w, m ≠ Message.state w) → msgs.foldl updateState acc = acc
  | [], _, _ => rfl
  | m :: rest, acc, h => by
    have hm : updateState acc m = acc := by
      cases m with
      | state w => exact absurd rfl (h _ (List.mem_cons_self _ _) w)
      | record s r => rfl
      | schema s sch => rfl
    rw [List.foldl_cons, hm]
    exact foldl_updateState_no_state rest acc (fun m hm' => h m (List.mem_cons_of_mem _ hm'))

/-- C4: for every run processed to completion, the returned checkpoint
is exactly the value of the last `STATE` message, regardless of how
many `RECORD`/`SCHEMA` messages follow it, and it is `none` when the
sequence contains no `STATE` message. -/
theorem checkpoint_is_last_state :
    (∀ cfg msgs v, (persist_messages cfg msgs).outcome = .ok v →
      v = lastStateValue msgs) ∧
    (∀ msgs : List Message, (∀ m ∈ msgs, ∀ w, m ≠ Message.state w) →
      lastStateValue msgs = none) := by
  constructor
  · intro cfg msgs v hok
    exact run_outcome_last_state cfg msgs initState [] 0 v hok
  · intro msgs h
    exact foldl_updateState_no_state msgs none h

/-- Witness for `checkpoint_is_last_state`: a concrete completed run
whose checkpoint is the value of its last `STATE` message. -/
theorem checkpoint_is_last_state_witness :
    some (PyVal.vInt 42) = lastStateValue
      [.state (.vInt 1), .schema "s" ⟨none⟩, .state (.vInt 42), .record "s" (.vInt 5)] :=
  checkpoint_is_last_state.1 reannounceConfig
    [.state (.vInt 1), .schema "s" ⟨none⟩, .state (.vInt 42), .record "s" (.vInt 5)]
    (some (.vInt 42)) rfl

lemma run_flush_count (cfg : Config) (msgs : List Message) :
    ∀ st ws fl v, (run cfg msgs st ws fl).outcome = .ok v →
      (run cfg msgs st ws fl).flushes
        = fl + schemaStreamChanges msgs st.current_stream_name + 1 := by
  induction msgs with
  | nil =>
    intro st ws fl v hok
    rcases hsn : st.stream_name with _ | sn
    · simp only [run, hsn] at hok
      exact absurd hok (by simp)
    · rcases hsd : save_data cfg st.records st.schema (some sn) with e | w
      · simp only [run, hsn, hsd] at hok
        exact absurd hok (by simp)
      · rcases w with _ | w <;>
          simp [run, hsn, hsd, schemaStreamChanges]
  | cons m rest ih =>
    intro st ws fl v hok
    cases m with
    | state w =>
      rw [run, step_state_eq] at hok ⊢
      rw [ih _ _ _ v hok]
      simp [schemaStreamChanges]
    | record s r =>
      rcases hstep : step cfg st (.record s r) with e | out
      · rw [run, hstep] at hok
        exact absurd hok (by simp)
      · rw [run, hstep] at hok ⊢
        obtain ⟨-, rfl⟩ := step_record_ok hstep
        rw [ih _ _ _ v hok]
        simp [schemaStreamChanges]
    | schema s sch =>
      by_cases hc : st.current_stream_name = some s
      · rw [run, step_schema_same hc] at hok ⊢
        rw [ih _ _ _ v hok]
        simp [schemaStreamChanges, hc]
      · rcases hsd : save_data cfg st.records st.schema st.current_stream_name with e | w
        · rw [run, step_schema_diff hc, hsd] at hok
          exact absurd hok (by simp)
        · rw [run, step_schema_diff hc, hsd] at hok ⊢
          rw [ih _ _ _ v hok]
          simp [schemaStreamChanges, hc]
          omega

/-- C3: for every run processed to completion, the total number of
`save_data` invocations equals the number of schema announcements that
change the active stream plus one for the final end-of-input flush; a
`SCHEMA` for `T` while a different stream `S` is active triggers exactly
one flush of `S`'s accumulated records before `T` becomes active; and
the end of input invokes the flush exactly once, even when the buffer
is empty. -/
theorem flush_count_correct :
    (∀ cfg msgs v, (persist_messages cfg msgs).outcome = .ok v →
      (persist_messages cfg msgs).flushes = schemaStreamChanges msgs none + 1) ∧
    (∀ cfg st (s t : String) sch w, st.current_stream_name = some s → s ≠ t →
      save_data cfg st.records st.schema (some s) = .ok w →
      step cfg st (.schema t sch) = .ok ⟨⟨st.state, some sch, some t, [], some t⟩, w, true⟩) ∧
    (∀ cfg st ws fl sn, st.stream_name = some sn →
      (run cfg [] st ws fl).flushes = fl + 1) := by
  refine ⟨?_, ?_, ?_⟩
  · intro cfg msgs v hok
    simpa [persist_messages, initState] using run_flush_count cfg msgs initState [] 0 v hok
  · intro cfg st s t sch w hcur hne hsd
    have hct : st.current_stream_name ≠ some t := by
      rw [hcur]
      simp [hne]
    rw [step_schema_diff hct, hcur, hsd]
  · intro cfg st ws fl sn hsn
    rcases hsd : save_data cfg st.records st.schema (some sn) with e | w
    · simp [run, hsn, hsd]
    · rcases w with _ | w <;> simp [run, hsn, hsd]

/-- Witness for `flush_count_correct` on the concrete scenario run. -/
theorem flush_count_correct_witness :
    (persist_messages scenarioConfig scenarioMessages).flushes
      = schemaStreamChanges scenarioMessages none + 1 :=
  flush_count_correct.1 scenarioConfig scenarioMessages none rfl

lemma processPrefix_records (cfg : Config) (msgs : List Message) :
    ∀ st st', processPrefix cfg msgs st = some st' →
      st'.records = recordsSinceLastSchema msgs st.records := by
  induction msgs with
  | nil =>
    intro st st' h
    simp only [processPrefix, Option.some.injEq] at h
    subst h
    rfl
  | cons m rest ih =>
    intro st st' h
    cases m with
    | state v =>
      rw [processPrefix, step_state_eq] at h
      simpa [recordsSinceLastSchema] using ih _ _ h
    | record s r =>
      rcases hstep : step cfg st (.record s r) with e | out
      · rw [processPrefix, hstep] at h
        exact absurd h (by simp)
      · rw [processPrefix, hstep] at h
        obtain ⟨-, rfl⟩ := step_record_ok hstep
        simpa [recordsSinceLastSchema] using ih _ _ h
    | schema s sch =>
      by_cases hc : st.current_stream_name = some s
      · rw [processPrefix, step_schema_same hc] at h
        simpa [recordsSinceLastSchema] using ih _ _ h
      · rcases hsd : save_data cfg st.records st.schema st.current_stream_name with e | w
        · rw [processPrefix, step_schema_diff hc, hsd] at h
          exact absurd h (by simp)
        · rw [processPrefix, step_schema_diff hc, hsd] at h
          simpa [recordsSinceLastSchema] using ih _ _ h

lemma processPrefix_none_empty (cfg : Config) (msgs : List Message) :
    ∀ st st', processPrefix cfg msgs st = some st' →
      (st.current_stream_name = none → st.records = []) →
      (st'.current_stream_name = none → st'.records = []) := by
  induction msgs with
  | nil =>
    intro st st' h hinv
    simp only [processPrefix, Option.some.injEq] at h
    subst h
    exact hinv
  | cons m rest ih =>
    intro st st' h hinv
    cases m with
    | state v =>
      rw [processPrefix, step_state_eq] at h
      exact ih _ _ h hinv
    | record s r =>
      rcases hstep : step cfg st (.record s r) with e | out
      · rw [processPrefix, hstep] at h
        exact absurd h (by simp)
      · rw [processPrefix, hstep] at h
        obtain ⟨hcur, rfl⟩ := step_record_ok hstep
        exact ih _ _ h (fun hnone => by simp [hcur] at hnone)
    | schema s sch =>
      by_cases hc : st.current_stream_name = some s
      · rw [processPrefix, step_schema_same hc] at h
        exact ih _ _ h (fun hnone => by simp at hnone)
      · rcases hsd : save_data cfg st.records st.schema st.current_stream_name with e | w
        · rw [processPrefix, step_schema_diff hc, hsd] at h
          exact absurd h (by simp)
        · rw [processPrefix, step_schema_diff hc, hsd] at h
          exact ih _ _ h (fun hnone => by simp at hnone)

/-- C9: after every non-aborting prefix of a run, the buffered record
list is empty whenever no stream is active, and otherwise contains
exactly the record payloads that arrived after the most recent `SCHEMA`
message, in arrival order; moreover a record is only ever appended to
the buffer by a `RECORD` step whose stream is the currently active one,
so no record for a non-active stream is ever buffered. -/
theorem buffer_invariant :
    (∀ cfg msgs st', processPrefix cfg msgs initState = some st' →
      st'.records = recordsSinceLastSchema msgs [] ∧
      (st'.current_stream_name = none → st'.records = [])) ∧
    (∀ cfg st s r out, step cfg st (.record s r) = .ok out →
      st.current_stream_name = some s ∧ out.st.records = st.records ++ [r]) := by
  constructor
  · intro cfg msgs st' h
    exact ⟨processPrefix_records cfg msgs initState st' h,
           processPrefix_none_empty cfg msgs initState st' h (fun _ => rfl)⟩
  · intro cfg st s r out h
    obtain ⟨hcur, rfl⟩ := step_record_ok h
    exact ⟨hcur, rfl⟩

/-- Witness for `buffer_invariant` on a concrete prefix. -/
theorem buffer_invariant_witness :
    (⟨none, some ⟨none⟩, some "s", [.vInt 1], some "s"⟩ : LoopState).records
        = recordsSinceLastSchema [.schema "s" ⟨none⟩, .record "s" (.vInt 1)] [] ∧
    ((⟨none, some ⟨none⟩, some "s", [.vInt 1], some "s"⟩ : LoopState).current_stream_name
        = none →
      (⟨none, some ⟨none⟩, some "s", [.vInt 1], some "s"⟩ : LoopState).records = []) :=
  buffer_invariant.1 reannounceConfig [.schema "s" ⟨none⟩, .record "s" (.vInt 1)] _ rfl

lemma dtypeOfField_error_eq {o : Option String} {e : String}
    (h : dtypeOfField o = .error e) : o = some e := by
  cases o with
  | none => simp [dtypeOfField] at h
  | some t =>
    simp only [dtypeOfField] at h
    split_ifs at h
    all_goals simp_all

lemma mapFields_ok_forall {props : List (String × Option String)} :
    ∀ {l}, mapFields props = .ok l →
      List.Forall₂ (fun (p : String × Option String) (q : String × Dtype) =>
        q.1 = p.1 ∧ dtypeOfField p.2 = .ok q.2) props l := by
  induction props with
  | nil =>
    intro l h
    simp only [mapFields, Except.ok.injEq] at h
    subst h
    constructor
  | cons kt rest ih =>
    intro l h
    obtain ⟨k, t⟩ := kt
    simp only [mapFields] at h
    rcases hd : dtypeOfField t with e | d <;> rw [hd] at h
    · exact absurd h (by simp)
    · rcases hr : mapFields rest with e | ds <;> rw [hr] at h
      · exact absurd h (by simp)
      · simp only [Except.ok.injEq] at h
        subst h
        exact List.Forall₂.cons ⟨rfl, hd⟩ (ih hr)

lemma mapFields_error_mem {props : List (String × Option String)} {e : String} :
    mapFields props = .error e →
      ∃ k, (k, some e) ∈ props ∧ dtypeOfField (some e) = .error e := by
  induction props with
  | nil => intro h; exact absurd h (by simp [mapFields])
  | cons kt rest ih =>
    intro h
    obtain ⟨k, t⟩ := kt
    simp only [mapFields] at h
    rcases hd : dtypeOfField t with e' | d <;> rw [hd] at h
    · simp only [Except.error.injEq] at h
      subst h
      have ht := dtypeOfField_error_eq hd
      subst ht
      exact ⟨k, List.mem_cons_self _ _, hd⟩
    · rcases hr : mapFields rest with e' | ds <;> rw [hr] at h
      · simp only [Except.error.injEq] at h
        subst h
        obtain ⟨k', hmem, herr⟩ := ih hr
        exact ⟨k', List.mem_cons_of_mem _ hmem, herr⟩
      · exact absurd h (by simp)

/-- C6: the type mapper sends `integer` to nullable int64, `number` to
nullable float64, `string` to nullable string, `boolean` to nullable
boolean, `array` to object, and a missing (or empty, hence falsy) type
to object; any other non-empty type string fails with the
unsupported-type error naming the offending type; a schema with no
`properties` map yields an empty layout; and on success the layout maps
each declared field, in order, to the dtype given by the per-field
table. -/
theorem type_mapper_correct :
    (dtypeOfField (some "integer") = .ok .int64 ∧
     dtypeOfField (some "number") = .ok .float64 ∧
     dtypeOfField (some "string") = .ok .string ∧
     dtypeOfField (some "boolean") = .ok .boolean ∧
     dtypeOfField (some "array") = .ok .object ∧
     dtypeOfField none = .ok .object ∧
     dtypeOfField (some "") = .ok .object) ∧
    (∀ t : String, t ≠ "" → t ≠ "integer" → t ≠ "number" → t ≠ "string" →
      t ≠ "boolean" → t ≠ "array" → dtypeOfField (some t) = .error t) ∧
    (∀ sch : JsonSchema, sch.properties = none →
      jsonschema_to_dataframe_schema sch = .ok []) ∧
    (∀ props, jsonschema_to_dataframe_schema ⟨some props⟩ = mapFields props) ∧
    (∀ props l, mapFields props = .ok l →
      List.Forall₂ (fun (p : String × Option String) (q : String × Dtype) =>
        q.1 = p.1 ∧ dtypeOfField p.2 = .ok q.2) props l) ∧
    (∀ props e, mapFields props = .error e →
      ∃ k, (k, some e) ∈ props ∧ dtypeOfField (some e) = .error e) := by
  refine ⟨⟨rfl, rfl, rfl, rfl, rfl, rfl, rfl⟩, ?_, ?_, fun _ => rfl, ?_, ?_⟩
  · intro t h0 h1 h2 h3 h4 h5
    simp [dtypeOfField, h0, h1, h2, h3, h4, h5]
  · intro sch h
    simp [jsonschema_to_dataframe_schema, h]
  · intro props l h
    exact mapFields_ok_forall h
  · intro props e h
    exact mapFields_error_mem h

/-- Witness for `type_mapper_correct`: the unrecognized type string
`datetime` fails with the unsupported-type error naming it. -/
theorem type_mapper_correct_witness :
    dtypeOfField (some "datetime") = .error "datetime" :=
  type_mapper_correct.2.1 "datetime" (by decide) (by decide) (by decide) (by decide)
    (by decide) (by decide)

lemma flatten_values_flat (d : List (String × PyVal)) (p sep : String) :
    ∀ kv ∈ flatten d p sep, (∀ m, kv.2 ≠ PyVal.vDict m) ∧ (∀ l, kv.2 ≠ PyVal.vList l) := by
  induction d, p, sep using flatten.induct with
  | case1 p sep =>
    intro kv hkv
    simp [flatten] at hkv
  | case2 k rest p sep new_key m ih2 ih1 =>
    intro kv hkv
    simp only [flatten] at hkv
    rcases List.mem_append.mp hkv with h | h
    · exact ih2 kv h
    · exact ih1 kv h
  | case3 k rest p sep l ih1 =>
    intro kv hkv
    simp only [flatten, List.mem_cons] at hkv
    rcases hkv with rfl | h
    · simp
    · exact ih1 kv h
  | case4 k rest p sep leaf hnd hnl ih1 =>
    intro kv hkv
    simp only [flatten, List.mem_cons] at hkv
    rcases hkv with rfl | h
    · exact ⟨fun m hm => hnd m hm, fun l hl => hnl l hl⟩
    · exact ih1 kv h

lemma flatten_key_prefixed (d : List (String × PyVal)) (p sep : String) :
    ∀ kv ∈ flatten d p sep, p ≠ "" → ∃ t, kv.1 = p ++ sep ++ t := by
  induction d, p, sep using flatten.induct with
  | case1 p sep =>
    intro kv hkv
    simp [flatten] at hkv
  | case2 k rest p sep new_key m ih2 ih1 =>
    intro kv hkv hp
    simp only [flatten] at hkv
    rcases List.mem_append.mp hkv with h | h
    · have hnk : (if p = "" then k else p ++ sep ++ k) ≠ "" := by
        rw [if_neg hp]
        exact append_ne_empty_left k (append_ne_empty_left sep hp)
      obtain ⟨t', ht⟩ := ih2 kv h hnk
      refine ⟨k ++ (sep ++ t'), ?_⟩
      have hnew : new_key = p ++ sep ++ k := dif_neg hp
      rw [ht, hnew]
      simp [String.append_assoc]
    · exact ih1 kv h hp
  | case3 k rest p sep l ih1 =>
    intro kv hkv hp
    simp only [flatten, List.mem_cons] at hkv
    rcases hkv with rfl | h
    · exact ⟨k, by rw [if_neg hp]⟩
    · exact ih1 kv h hp
  | case4 k rest p sep leaf hnd hnl ih1 =>
    intro kv hkv hp
    simp only [flatten, List.mem_cons] at hkv
    rcases hkv with rfl | h
    · exact ⟨k, by rw [if_neg hp]⟩
    · exact ih1 kv h hp

/-- C10: `flatten` is a pure function from a nested dict to a
single-level mapping: on the docstring example it yields exactly the
documented flat mapping, with the list value replaced by its Python
string representation; in general every value it emits is neither a
dict nor a list (lists having been stringified and dicts recursed
into), and under a non-empty parent key every emitted key is the parent
key followed by the separator followed by a trailing segment. -/
theorem flatten_correct :
    flatten exampleNested "" "__" =
      [("key_1", .vInt 1), ("key_2__key_3", .vInt 2), ("key_2__key_4__key_5", .vInt 3),
       ("key_2__key_4__key_6", .vStr "[\x2710\x27, \x2711\x27]")] ∧
    (∀ d p sep, ∀ kv ∈ flatten d p sep,
      (∀ m, kv.2 ≠ PyVal.vDict m) ∧ (∀ l, kv.2 ≠ PyVal.vList l)) ∧
    (∀ d p sep, ∀ kv ∈ flatten d p sep, p ≠ "" → ∃ t, kv.1 = p ++ sep ++ t) := by
  refine ⟨?_, flatten_values_flat, flatten_key_prefixed⟩
  simp [exampleNested, flatten, pyReprList, pyRepr]

/-- Witness for `flatten_correct`: the flattened pair of key
`key_2__key_3` carries a non-dict, non-list value. -/
theorem flatten_correct_witness :
    (∀ m, (PyVal.vInt 2) ≠ PyVal.vDict m) ∧ (∀ l, (PyVal.vInt 2) ≠ PyVal.vList l) :=
  flatten_correct.2.1 exampleNested "" "__" ("key_2__key_3", PyVal.vInt 2)
    (by rw [flatten_correct.1]; simp)

/-- C5: on the concrete scenario (destination `/tmp`, partition `wow`,
file name `a.parquet`, stream `my_stream`, no compression) the run
performs exactly one write, targeting `/tmp/my_stream/wow/a.parquet`
with the two records; and in general a flush of a non-empty buffer
targets `destination_path/stream[/partition]/file_name`, with the
partition segment omitted exactly when the partition path is empty, the
file name defaulting to the freshly generated unique name with the
`.parquet` extension exactly when `file_name` is empty, and the fixed
compression extension appended exactly when a compression method is
configured (for path components that neither start nor end with the
separator, so that `os.path.join` inserts exactly one separator). -/
theorem save_data_path_construction :
    persist_messages scenarioConfig scenarioMessages =
      ⟨[⟨"/tmp/my_stream/wow/a.parquet", [kyrieRecord, paulRecord], [], none⟩], 2, .ok none⟩ ∧
    (∀ cfg records sch (stream : String) dts,
      records ≠ [] →
      jsonschema_to_dataframe_schema sch = .ok dts →
      cfg.destination_path ≠ "" →
      cfg.destination_path.data.getLast? ≠ some '/' →
      stream ≠ "" →
      stream.data.head? ≠ some '/' →
      stream.data.getLast? ≠ some '/' →
      (cfg.destination_partition_path = "" ∨
        (cfg.destination_partition_path.data.head? ≠ some '/' ∧
         cfg.destination_partition_path.data.getLast? ≠ some '/')) →
      (resolvedFileName cfg).data.head? ≠ some '/' →
      (cfg.compression_method = none →
        save_data cfg records (some sch) (some stream) =
          .ok (some ⟨specFlushPath cfg stream, records, dts, none⟩)) ∧
      (∀ c ext, cfg.compression_method = some c → extension_mapping c = some ext →
        save_data cfg records (some sch) (some stream) =
          .ok (some ⟨specFlushPath cfg stream ++ ext, records, dts, some c⟩))) := by
  constructor
  · rfl
  · intro cfg records sch stream dts hne hdt hd1 hd2 hs0 hs1 hs2 hp hf
    have hfname : (if cfg.file_name = "" then cfg.gen_name ++ ".parquet" else cfg.file_name)
        = resolvedFileName cfg := rfl
    have hpath : (if cfg.destination_partition_path = ""
        then path_join3 cfg.destination_path stream (resolvedFileName cfg)
        else path_join4 cfg.destination_path stream cfg.destination_partition_path
          (resolvedFileName cfg))
        = specFlushPath cfg stream := by
      by_cases hpe : cfg.destination_partition_path = ""
      · rw [if_pos hpe, path_join3_clean hd1 hd2 hs0 hs1 hs2 hf]
        simp [specFlushPath, hpe]
      · rcases hp with hp | ⟨hp1, hp2⟩
        · exact absurd hp hpe
        · rw [if_neg hpe, path_join4_clean hd1 hd2 hs0 hs1 hs2 hpe hp1 hp2 hf]
          simp only [specFlushPath, if_neg hpe]
          apply String.ext
          simp [List.append_assoc]
    have hlen : ¬ records.length = 0 := by
      simpa [List.length_eq_zero] using hne
    constructor
    · intro hcomp
      simp only [save_data, if_neg hlen, hdt, hcomp, hfname, hpath]
    · intro c ext hcomp hext
      have hce : c ≠ "" := by
        intro hc
        subst hc
        exact absurd hext (by simp [extension_mapping])
      simp only [save_data, if_neg hlen, hdt, hcomp, hfname, hpath, if_neg hce, hext]

/-- Witness for `save_data_path_construction` at the scenario's flush
arguments, with no compression configured. -/
theorem save_data_path_construction_witness :
    save_data scenarioConfig [kyrieRecord] (some ⟨none⟩) (some "my_stream") =
      .ok (some ⟨specFlushPath scenarioConfig "my_stream", [kyrieRecord], [], none⟩) :=
  ((save_data_path_construction.2 scenarioConfig [kyrieRecord] ⟨none⟩ "my_stream" []
      (List.cons_ne_nil _ _) rfl (by decide) (by decide) (by decide) (by decide)
      (by decide) (Or.inr ⟨by decide, by decide⟩) (by decide)).1) rfl

end TargetParquet
